import Mathlib

/-!
Shallow embedding of the Source Orbit VS Code client:
the request-forwarding module (requests.ts, `src/unnamed/part_000`) and the
activation/event glue of `src/vs/client/src/extension.ts`.

Event handlers are modelled as pure functions from their inputs (and the
mutable state they read) to the list of observable actions they perform
(view renders and outgoing language-server requests) together with the
updated state.
-/

namespace SourceOrbit

/-- A VS Code URI, abstracted to its string form: the client only ever
sends `uri.toString()` over the wire. -/
structure Uri where
  s : String
deriving DecidableEq, Repr

/-- The editor API method `uri.toString()`. -/
def Uri.toString (u : Uri) : String := u.s

/-- A workspace folder: a root URI plus a display name. -/
structure WorkspaceFolder where
  uri : Uri
  name : String
deriving DecidableEq, Repr

/-- ILE object descriptor owned by the external server
(`@ibm/sourceorbit`); its fields are not interpreted by this client. -/
structure ILEObject where
  payload : String
deriving DecidableEq, Repr

/-- Impacted-object descriptor owned by the external server. -/
structure ImpactedObject where
  payload : String
deriving DecidableEq, Repr

/-- The language-client transport handle; this client only tests it for
presence and calls `sendRequest` on it. -/
structure LanguageClient where
  id : Nat
deriving DecidableEq, Repr

/-- A parameter of an outgoing request: a string, a list of strings, or an
abstract object descriptor. -/
inductive Param where
  | str (s : String)
  | strList (l : List String)
  | obj (o : ILEObject)
deriving DecidableEq, Repr

/-- An outgoing `sendRequest` call: request name plus parameter array. -/
structure Request where
  name : String
  params : List Param
deriving DecidableEq, Repr

/-- Settlement of a call as observable in JavaScript: a promise resolved
with a value, a rejected promise, or a synchronous `undefined` return. -/
inductive PromiseResult (α : Type) where
  | resolved (a : α)
  | rejected
  | undef
deriving DecidableEq, Repr

/-- What a call to a request function does: the requests it sends over the
language client plus its returned value. -/
structure CallEffect (α : Type) where
  sent : List Request
  result : PromiseResult α
deriving DecidableEq, Repr

/-- The external analysis service, seen through the typed casts the client
applies to `sendRequest` replies (`result as boolean`, `result as ILEObject[]`,
`result as ImpactedObject[]`). -/
structure Server where
  boolReply : Request → Bool
  objsReply : Request → List ILEObject
  impactsReply : Request → List ImpactedObject

/-- requests.ts `isReady`: `if (!client) return false;` else send `isReady`
with the workspace URI string and return the reply as boolean. -/
def isReady (client : Option LanguageClient) (srv : Server)
    (workspaceFolder : WorkspaceFolder) : CallEffect Bool :=
  match client with
  | none => ⟨[], .resolved false⟩
  | some _ =>
    let req : Request := ⟨"isReady", [.str workspaceFolder.uri.toString]⟩
    ⟨[req], .resolved (srv.boolReply req)⟩

/-- requests.ts `getResolvedObjects`: `if (!client) return [];` else send
`getResolvedObjects` with the workspace URI string. -/
def getResolvedObjects (client : Option LanguageClient) (srv : Server)
    (workspaceFolder : WorkspaceFolder) : CallEffect (List ILEObject) :=
  match client with
  | none => ⟨[], .resolved []⟩
  | some _ =>
    let req : Request := ⟨"getResolvedObjects", [.str workspaceFolder.uri.toString]⟩
    ⟨[req], .resolved (srv.objsReply req)⟩

/-- requests.ts `getDeps`: `if (!client) return [];` else send `getDeps`
with the workspace URI string and the object descriptor. -/
def getDeps (client : Option LanguageClient) (srv : Server)
    (workspaceFolder : WorkspaceFolder) (ileObject : ILEObject) :
    CallEffect (List ILEObject) :=
  match client with
  | none => ⟨[], .resolved []⟩
  | some _ =>
    let req : Request := ⟨"getDeps", [.str workspaceFolder.uri.toString, .obj ileObject]⟩
    ⟨[req], .resolved (srv.objsReply req)⟩

/-- requests.ts `getImpacts`: `if (!client) return [];` else send
`getImpacts` with the workspace URI string and the file URIs mapped
element-wise to strings. -/
def getImpacts (client : Option LanguageClient) (srv : Server)
    (workspaceFolder : WorkspaceFolder) (fileUris : List Uri) :
    CallEffect (List ImpactedObject) :=
  match client with
  | none => ⟨[], .resolved []⟩
  | some _ =>
    let req : Request :=
      ⟨"getImpacts", [.str workspaceFolder.uri.toString,
                      .strList (fileUris.map Uri.toString)]⟩
    ⟨[req], .resolved (srv.impactsReply req)⟩

/-- requests.ts `reloadProject`: `if (!client) return Promise.reject();`
else send `reloadProject` with the workspace URI string. -/
def reloadProject (client : Option LanguageClient) (srv : Server)
    (workspaceFolder : WorkspaceFolder) : CallEffect Unit :=
  match client with
  | none => ⟨[], .rejected⟩
  | some _ =>
    let req : Request := ⟨"reloadProject", [.str workspaceFolder.uri.toString]⟩
    ⟨[req], .resolved ()⟩

/-- requests.ts `fixProject`: `if (!client) return;` (a plain `undefined`,
not a rejected promise) else send `fixProject` with the workspace URI string
and the suggestion kind. -/
def fixProject (client : Option LanguageClient) (srv : Server)
    (workspaceFolder : WorkspaceFolder) (suggestion : String) : CallEffect Unit :=
  match client with
  | none => ⟨[], .undef⟩
  | some _ =>
    let req : Request := ⟨"fixProject", [.str workspaceFolder.uri.toString, .str suggestion]⟩
    ⟨[req], .resolved ()⟩

/-- The `lastBranch` map of git.ts: a plain JS object keyed by workspace URI
string.  Assignment is modelled by shadowing cons; lookup finds the most
recent binding, matching JS property read after assignment. -/
def BranchMap := List (String × String)

/-- Read `lastBranch[key]`: `none` models `undefined`. -/
def BranchMap.lookup : BranchMap → String → Option String
  | [], _ => none
  | (k, v) :: rest, key => if k = key then some v else BranchMap.lookup rest key

/-- Write `lastBranch[key] = v`. -/
def BranchMap.set (m : BranchMap) (key v : String) : BranchMap :=
  (key, v) :: m

/-- Which of the two impact tree views is rendered. -/
inductive ViewKind where
  | active
  | git
deriving DecidableEq, Repr

/-- Observable effects of the activation glue: an impact-view render
(`ImpactView.showImpactFor(files)`) or an outgoing request on the
language client. -/
inductive Action where
  | showImpact (view : ViewKind) (files : List Uri)
  | req (r : Request)
deriving DecidableEq, Repr

/-- Modelled from the spec: the implementation of `ImpactView.showImpactFor`
(src/vs/client/src/views/impactView.ts) is not among the repository sources.
Per the spec, an impact-view re-render issues one `getImpacts`-equivalent
request to the analysis service for a nonempty file list, and clearing the
view (rendering it for the empty file list) issues none; a direct
`sendRequest` is one outstanding request. -/
def Action.requestCount : Action → Nat
  | .req _ => 1
  | .showImpact _ files => if files.isEmpty then 0 else 1

/-- Number of outstanding requests the actions of one event handler cause. -/
def requestLoad (actions : List Action) : Nat :=
  (actions.map Action.requestCount).sum

/-- The `repo.state.onDidChange` handler installed by `setupGitEventHandler`
(extension.ts lines 100-116), as a pure function.  `currentBranch` is the
value of `head.name` at event time, `changedFiles` the result of
`getChangedFiles(workspaceFolder)` (git.ts, a local git diff, not a server
request).  Returns the actions performed and the updated `lastBranch` map. -/
def gitStateChangeHandler (client : Option LanguageClient) (srv : Server)
    (workspaceFolder : WorkspaceFolder) (currentBranch : Option String)
    (changedFiles : List Uri) (lastBranch : BranchMap) :
    List Action × BranchMap :=
  match currentBranch with
  | none => ([], lastBranch)
  | some cb =>
    -- JS truthiness of `if (currentBranch)`: defined and nonempty
    if cb = "" then ([], lastBranch)
    else
      let workspaceUri := workspaceFolder.uri.toString
      -- `if (lastBranch[workspaceUri] && currentBranch !== lastBranch[workspaceUri])`
      let branchSwitch : Bool :=
        match lastBranch.lookup workspaceUri with
        | some p => (p != "") && (cb != p)
        | none => false
      if branchSwitch then
        ([Action.showImpact .git []] ++
          (reloadProject client srv workspaceFolder).sent.map Action.req,
         lastBranch.set workspaceUri cb)
      else
        ([Action.showImpact .git changedFiles],
         lastBranch.set workspaceUri cb)

/-- A text document, abstracted to its URI. -/
structure TextDocument where
  uri : Uri
deriving DecidableEq, Repr

/-- A text editor as the handler sees it: `e.document` is truthiness-checked
by the code, so it is modelled as optional. -/
structure TextEditor where
  document : Option TextDocument
deriving DecidableEq, Repr

/-- The `window.onDidChangeActiveTextEditor` handler (extension.ts lines
162-167): renders the active-impact view for the one document of the new
editor, when both exist. -/
def onDidChangeActiveTextEditorHandler (e : Option TextEditor) : List Action :=
  match e with
  | none => []
  | some ed =>
    match ed.document with
    | none => []
    | some doc => [Action.showImpact .active [doc.uri]]

/-- The git extension API value `repo.state.HEAD`: an optional branch name. -/
structure Head where
  name : Option String
deriving DecidableEq, Repr

/-- The observable repository state. -/
structure RepoState where
  HEAD : Option Head
deriving DecidableEq, Repr

/-- A git repository handle. -/
structure Repository where
  state : RepoState
deriving DecidableEq, Repr

/-- The git extension API: maps a folder URI to its repository, if any. -/
structure GitAPI where
  getRepository : Uri → Option Repository

/-- One iteration of the `for (const workspaceFolder of workspaceFolders)`
loop of `setupGitEventHandler` (extension.ts lines 92-119): when the folder
has a repository whose HEAD has a truthy branch name, record the branch in
`lastBranch` and subscribe to the state changes of the repository; otherwise do
nothing for this folder.  The accumulator is (subscribed workspace URI
strings, lastBranch map). -/
def setupStep (api : GitAPI) (acc : List String × BranchMap)
    (workspaceFolder : WorkspaceFolder) : List String × BranchMap :=
  match api.getRepository workspaceFolder.uri with
  | none => acc
  | some repo =>
    match repo.state.HEAD with
    | none => acc
    | some head =>
      match head.name with
      | none => acc
      | some n =>
        -- JS truthiness of `if (head && head.name)`
        if n = "" then acc
        else
          let workspaceUri := workspaceFolder.uri.toString
          (acc.1 ++ [workspaceUri], acc.2.set workspaceUri n)

/-- The function `setupGitEventHandler(workspaceFolders)` (extension.ts lines 88-121):
when the git API is available, process each folder; the setup itself renders
nothing and sends no request, so its action list is empty.  Returns
(actions, subscribed workspace URI strings, updated lastBranch map). -/
def setupGitEventHandler (gitApi : Option GitAPI)
    (workspaceFolders : List WorkspaceFolder) (lastBranch : BranchMap) :
    List Action × List String × BranchMap :=
  match gitApi with
  | none => ([], [], lastBranch)
  | some api =>
    let r := workspaceFolders.foldl (setupStep api) ([], lastBranch)
    ([], r.1, r.2)

/-- The conditions under which `setupGitEventHandler` installs a state-change
subscription for one folder: git API available, the folder has a repository,
and the HEAD of that repository has a truthy (defined nonempty) branch name. -/
def gitSetupOk (gitApi : Option GitAPI) (workspaceFolder : WorkspaceFolder) : Bool :=
  match gitApi with
  | none => false
  | some api =>
    match api.getRepository workspaceFolder.uri with
    | none => false
    | some repo =>
      match repo.state.HEAD with
      | none => false
      | some head =>
        match head.name with
        | none => false
        | some n => n != ""

/-- A later repository state change in a folder runs the git state-change
handler only if a subscription was installed for that folder at setup time;
otherwise nothing observes the event. -/
def laterStateChange (subscribed : List String) (client : Option LanguageClient)
    (srv : Server) (workspaceFolder : WorkspaceFolder)
    (currentBranch : Option String) (changedFiles : List Uri)
    (lastBranch : BranchMap) : List Action × BranchMap :=
  if workspaceFolder.uri.toString ∈ subscribed then
    gitStateChangeHandler client srv workspaceFolder currentBranch changedFiles lastBranch
  else
    ([], lastBranch)

/-- The `vscode-sourceorbit.objects.autoFix` command body (extension.ts
lines 139-156), from the picker result on: `chosen` is the button the user
picked (`none` models dismissing the picker).  `File names` maps to the
suggestion kind `renames`, `RPG includes` to `includes`; any other button
(including `Cancel`) leaves the kind undefined and sends nothing.  Returns
the requests sent. -/
def autoFixCommandHandler (client : Option LanguageClient) (srv : Server)
    (workspaceFolder : WorkspaceFolder) (chosen : Option String) : List Request :=
  match chosen with
  | none => []
  | some c =>
    -- JS truthiness of `if (chosen)`
    if c = "" then []
    else
      let ty : Option String :=
        match c with
        | "File names" => some "renames"
        | "RPG includes" => some "includes"
        | _ => none
      match ty with
      | none => []
      | some t => (fixProject client srv workspaceFolder t).sent

/-- The mutable state the client holds across events: the module-level
language-client handle of requests.ts and extension.ts, the activation-level
`objectViews` record (keyed by workspace fsPath), and the `lastBranch` map
of git.ts. -/
structure ClientMutableState where
  client : Option LanguageClient
  objectViews : List String
  lastBranch : BranchMap

/-- requests.ts `setClient`: overwrites the module-level client handle. -/
def setClient (lc : LanguageClient) (s : ClientMutableState) : ClientMutableState :=
  { s with client := some lc }

/-- The `pushExtensibleChildren` callback (extension.ts lines 80-85):
creates an ObjectsView for a loaded project and records it in `objectViews`
under the workspace fsPath of the project. -/
def registerObjectsView (fsPath : String) (s : ClientMutableState) : ClientMutableState :=
  { s with objectViews := s.objectViews ++ [fsPath] }

/-- The git state-change handler as a transition on the full mutable state:
it reads the client handle and writes only the `lastBranch` map. -/
def gitStateChangeStep (srv : Server) (workspaceFolder : WorkspaceFolder)
    (currentBranch : Option String) (changedFiles : List Uri)
    (s : ClientMutableState) : List Action × ClientMutableState :=
  let r := gitStateChangeHandler s.client srv workspaceFolder currentBranch
    changedFiles s.lastBranch
  (r.1, { s with lastBranch := r.2 })

/-- Concrete fixtures used by witnesses and counterexamples. -/
def wf0 : WorkspaceFolder := ⟨⟨"file:///proj"⟩, "proj"⟩

def srv0 : Server := ⟨fun _ => true, fun _ => [], fun _ => []⟩

def lc0 : LanguageClient := ⟨0⟩

def s0 : ClientMutableState := ⟨none, [], []⟩

def api0 : GitAPI := ⟨fun _ => none⟩

/-- C1 counterexample: the claim states that with no connection every request
function returns an empty list, `false`, or a rejected promise.  `fixProject`
with no client executes a bare `return;`, yielding `undefined` — at its
result type the only documented degraded value would be the rejected promise,
and `undefined` is not it (nor an empty list, nor `false`, which do not even
inhabit this result type). -/
theorem fixProject_degraded_value_not_documented :
    (fixProject none srv0 wf0 "renames").sent = [] ∧
    (fixProject none srv0 wf0 "renames").result = PromiseResult.undef ∧
    (fixProject none srv0 wf0 "renames").result ≠ PromiseResult.rejected :=
  ⟨rfl, rfl, by decide⟩

/-- C1 (amended): with no language-client connection, no request function
sends a request and none throws (all are total): `isReady` resolves to
`false`, `getResolvedObjects`, `getDeps` and `getImpacts` resolve to the
empty list, `reloadProject` returns a rejected promise — the documented
degraded values — while `fixProject` returns `undefined`. -/
theorem requests_degrade_without_client (srv : Server) (wf : WorkspaceFolder)
    (o : ILEObject) (uris : List Uri) (sugg : String) :
    isReady none srv wf = ⟨[], .resolved false⟩ ∧
    getResolvedObjects none srv wf = ⟨[], .resolved []⟩ ∧
    getDeps none srv wf o = ⟨[], .resolved []⟩ ∧
    getImpacts none srv wf uris = ⟨[], .resolved []⟩ ∧
    reloadProject none srv wf = ⟨[], .rejected⟩ ∧
    fixProject none srv wf sugg = ⟨[], .undef⟩ :=
  ⟨rfl, rfl, rfl, rfl, rfl, rfl⟩

/-- C9: with no language-client connection, `fixProject` returns `undefined`
(not a rejected promise; an empty collection and `false` do not inhabit its
result type) and sends no request. -/
theorem fixProject_returns_undefined_without_client (srv : Server)
    (wf : WorkspaceFolder) (sugg : String) :
    (fixProject none srv wf sugg).result = PromiseResult.undef ∧
    (fixProject none srv wf sugg).result ≠ PromiseResult.rejected ∧
    (fixProject none srv wf sugg).sent = [] :=
  ⟨rfl, fun h => PromiseResult.noConfusion h, rfl⟩

/-- C6: when a connection exists, every request function sends exactly one
request bearing the documented name, with the workspace root URI in string
form as first parameter; `getImpacts` sends the pair of the workspace URI
string and the input file URIs converted element-wise to strings in order. -/
theorem requests_send_documented_names_and_params (c : LanguageClient)
    (srv : Server) (wf : WorkspaceFolder) (o : ILEObject) (uris : List Uri)
    (sugg : String) :
    (isReady (some c) srv wf).sent = [⟨"isReady", [.str wf.uri.toString]⟩] ∧
    (getResolvedObjects (some c) srv wf).sent =
      [⟨"getResolvedObjects", [.str wf.uri.toString]⟩] ∧
    (getDeps (some c) srv wf o).sent =
      [⟨"getDeps", [.str wf.uri.toString, .obj o]⟩] ∧
    (getImpacts (some c) srv wf uris).sent =
      [⟨"getImpacts", [.str wf.uri.toString, .strList (uris.map Uri.toString)]⟩] ∧
    (reloadProject (some c) srv wf).sent =
      [⟨"reloadProject", [.str wf.uri.toString]⟩] ∧
    (fixProject (some c) srv wf sugg).sent =
      [⟨"fixProject", [.str wf.uri.toString, .str sugg]⟩] :=
  ⟨rfl, rfl, rfl, rfl, rfl, rfl⟩

/-- C5: an active-text-editor change whose event carries an editor with a
document re-renders the active-impact view for exactly the one-element list
of the URI of that document; an event with no editor, or an editor with no
document, performs nothing. -/
theorem active_editor_change_recomputes_active_impact (doc : TextDocument) :
    onDidChangeActiveTextEditorHandler (some ⟨some doc⟩) =
      [Action.showImpact .active [doc.uri]] ∧
    onDidChangeActiveTextEditorHandler none = [] ∧
    onDidChangeActiveTextEditorHandler (some ⟨none⟩) = [] :=
  ⟨rfl, rfl, rfl⟩

/-- C3: in the auto-fix picker command, selecting `File names` forwards
exactly the suggestion kind `renames` to `fixProject`, selecting
`RPG includes` forwards exactly `includes`, and dismissing the picker or
choosing `Cancel` sends no request. -/
theorem autoFix_forwards_selected_kind (c : LanguageClient) (srv : Server)
    (wf : WorkspaceFolder) :
    autoFixCommandHandler (some c) srv wf (some "File names") =
      [⟨"fixProject", [.str wf.uri.toString, .str "renames"]⟩] ∧
    autoFixCommandHandler (some c) srv wf (some "RPG includes") =
      [⟨"fixProject", [.str wf.uri.toString, .str "includes"]⟩] ∧
    autoFixCommandHandler (some c) srv wf (some "Cancel") = [] ∧
    autoFixCommandHandler (some c) srv wf none = [] := by
  refine ⟨rfl, rfl, rfl, rfl⟩

/-- Setting a key leaves the lookup of every other key unchanged. -/
theorem BranchMap.lookup_set_ne (m : BranchMap) (k key v : String) (h : k ≠ key) :
    (m.set k v).lookup key = m.lookup key := by
  simp [BranchMap.set, BranchMap.lookup, h]

/-- C2: on a repository state-change event where the current branch name is
defined (truthy, i.e. nonempty — the guard `if (currentBranch)` in the code) and
differs from the nonempty last-known branch name stored for the workspace,
the handler renders the git-impact view for the empty file list (clearing it)
and then issues the `reloadProject` request, and performs no incremental
impact recompute: its action list is exactly those two actions in that
order. -/
theorem branch_switch_clears_and_reloads (c : LanguageClient) (srv : Server)
    (wf : WorkspaceFolder) (cb lb : String) (files : List Uri) (m : BranchMap)
    (hcb : cb ≠ "") (hlb : m.lookup wf.uri.toString = some lb)
    (hne : lb ≠ "") (hdiff : cb ≠ lb) :
    gitStateChangeHandler (some c) srv wf (some cb) files m =
      ([Action.showImpact .git [],
        Action.req ⟨"reloadProject", [.str wf.uri.toString]⟩],
       m.set wf.uri.toString cb) := by
  simp [gitStateChangeHandler, hcb, hlb, hne, hdiff, reloadProject]

/-- C2 witness: branch switch from `main` to `dev` in workspace
`file:///proj`. -/
theorem branch_switch_clears_and_reloads_witness :
    gitStateChangeHandler (some lc0) srv0 wf0 (some "dev") []
        [("file:///proj", "main")] =
      ([Action.showImpact .git [],
        Action.req ⟨"reloadProject", [.str "file:///proj"]⟩],
       BranchMap.set [("file:///proj", "main")] "file:///proj" "dev") :=
  branch_switch_clears_and_reloads lc0 srv0 wf0 "dev" "main" []
    [("file:///proj", "main")] (by decide) (by decide) (by decide) (by decide)

/-- C4: on a repository state-change event where the current branch name is
defined (truthy, nonempty) and equals the last-known branch name stored for
the workspace, the actions of the handler are exactly one git-impact render for
the changed files of that workspace — the `getImpacts`-equivalent lookup of
the git-impact view — and no `reloadProject` request. -/
theorem same_branch_single_impact_lookup (c : LanguageClient) (srv : Server)
    (wf : WorkspaceFolder) (cb : String) (files : List Uri) (m : BranchMap)
    (hcb : cb ≠ "") (hlb : m.lookup wf.uri.toString = some cb) :
    gitStateChangeHandler (some c) srv wf (some cb) files m =
      ([Action.showImpact .git files], m.set wf.uri.toString cb) := by
  simp [gitStateChangeHandler, hcb, hlb]

/-- C4 witness: a state change on the unchanged branch `main` with one
changed file. -/
theorem same_branch_single_impact_lookup_witness :
    gitStateChangeHandler (some lc0) srv0 wf0 (some "main")
        [⟨"file:///proj/qrpglesrc/a.rpgle"⟩] [("file:///proj", "main")] =
      ([Action.showImpact .git [⟨"file:///proj/qrpglesrc/a.rpgle"⟩]],
       BranchMap.set [("file:///proj", "main")] "file:///proj" "main") :=
  same_branch_single_impact_lookup lc0 srv0 wf0 "main"
    [⟨"file:///proj/qrpglesrc/a.rpgle"⟩] [("file:///proj", "main")]
    (by decide) (by decide)

/-- C7 counterexample: the claim states the branch-name map is the only
mutable state and nothing else is created or mutated; yet `setClient`
mutates the module-level client handle (leaving the branch map unchanged),
and the project-load callback adds an entry to the activation-level
`objectViews` record. -/
theorem setClient_mutates_client_handle :
    (setClient lc0 s0).client ≠ s0.client ∧
    (setClient lc0 s0).lastBranch = s0.lastBranch ∧
    (registerObjectsView "/proj" s0).objectViews ≠ s0.objectViews ∧
    (registerObjectsView "/proj" s0).lastBranch = s0.lastBranch :=
  ⟨by decide, rfl, by decide, rfl⟩

/-- C7 (amended): the mutable state held across events comprises exactly the
last-known-branch map, the shared language-client handle (written by
`setClient`), and the `objectViews` record (one entry appended per loaded
project); each writer touches only its own component, and the event handler
that runs between events writes only the branch map. -/
theorem mutable_state_components (lc : LanguageClient) (fsPath : String)
    (srv : Server) (wf : WorkspaceFolder) (cb : Option String)
    (files : List Uri) (s : ClientMutableState) :
    (setClient lc s).client = some lc ∧
    (setClient lc s).objectViews = s.objectViews ∧
    (setClient lc s).lastBranch = s.lastBranch ∧
    (registerObjectsView fsPath s).client = s.client ∧
    (registerObjectsView fsPath s).objectViews = s.objectViews ++ [fsPath] ∧
    (registerObjectsView fsPath s).lastBranch = s.lastBranch ∧
    (gitStateChangeStep srv wf cb files s).2.client = s.client ∧
    (gitStateChangeStep srv wf cb files s).2.objectViews = s.objectViews :=
  ⟨rfl, rfl, rfl, rfl, rfl, rfl, rfl, rfl⟩

/-- C8: each triggering event handler present in the visible sources — the
repository state-change handler, the active-editor change handler and the
workspace-folders change handler (git setup) — causes at most one
outstanding request to the analysis service, counting a direct `sendRequest`
as one and an impact-view render as at most one (none when clearing). -/
theorem handlers_issue_at_most_one_request (client : Option LanguageClient)
    (srv : Server) (wf : WorkspaceFolder) (cb : Option String)
    (files : List Uri) (m : BranchMap) (e : Option TextEditor)
    (gitApi : Option GitAPI) (folders : List WorkspaceFolder) :
    requestLoad (gitStateChangeHandler client srv wf cb files m).1 ≤ 1 ∧
    requestLoad (onDidChangeActiveTextEditorHandler e) ≤ 1 ∧
    requestLoad (setupGitEventHandler gitApi folders m).1 ≤ 1 := by
  refine ⟨?_, ?_, ?_⟩
  · rcases cb with _ | cb
    · simp [gitStateChangeHandler, requestLoad]
    by_cases hcb : cb = ""
    · simp [gitStateChangeHandler, hcb, requestLoad]
    simp only [gitStateChangeHandler, if_neg hcb]
    split
    · rcases client with _ | c <;>
        simp [requestLoad, Action.requestCount, reloadProject]
    · simp only [requestLoad, List.map_cons, List.map_nil, Action.requestCount]
      split <;> simp
  · rcases e with _ | ⟨_ | doc⟩ <;>
      simp [onDidChangeActiveTextEditorHandler, requestLoad, Action.requestCount]
  · rcases gitApi with _ | api <;> simp [setupGitEventHandler, requestLoad]

/-- One setup-loop iteration for a folder that either fails the setup
conditions or has a key other than `key` neither subscribes `key` nor
changes the lookup of `key` in the branch map. -/
theorem setupStep_preserves (api : GitAPI) (key : String) (g : WorkspaceFolder)
    (acc : List String × BranchMap)
    (hko : g.uri.toString = key → gitSetupOk (some api) g = false)
    (h1 : key ∉ acc.1) :
    key ∉ (setupStep api acc g).1 ∧
    (setupStep api acc g).2.lookup key = acc.2.lookup key := by
  unfold setupStep
  cases hrepo : api.getRepository g.uri with
  | none => exact ⟨h1, rfl⟩
  | some repo =>
    dsimp only
    cases hhead : repo.state.HEAD with
    | none => exact ⟨h1, rfl⟩
    | some head =>
      dsimp only
      cases hname : head.name with
      | none => exact ⟨h1, rfl⟩
      | some n =>
        dsimp only
        by_cases hn : n = ""
        · simp only [if_pos hn]
          exact ⟨h1, by trivial⟩
        · have hne : g.uri.toString ≠ key := by
            intro hk
            have hfalse := hko hk
            simp [gitSetupOk, hrepo, hhead, hname, hn] at hfalse
          simp only [if_neg hn]
          constructor
          · intro hmem
            rcases List.mem_append.mp hmem with hl | hr
            · exact h1 hl
            · exact hne ((List.mem_singleton.mp hr).symm)
          · exact BranchMap.lookup_set_ne acc.2 g.uri.toString key n hne

/-- The whole setup loop preserves non-subscription of `key` and the lookup
of `key`, provided every folder carrying `key` fails the setup conditions. -/
theorem setupFold_preserves (api : GitAPI) (key : String)
    (folders : List WorkspaceFolder) (acc : List String × BranchMap)
    (hfail : ∀ g ∈ folders, g.uri.toString = key → gitSetupOk (some api) g = false)
    (h1 : key ∉ acc.1) :
    key ∉ (folders.foldl (setupStep api) acc).1 ∧
    (folders.foldl (setupStep api) acc).2.lookup key = acc.2.lookup key := by
  induction folders generalizing acc with
  | nil => exact ⟨h1, rfl⟩
  | cons g rest ih =>
    simp only [List.foldl_cons]
    have hg := hfail g (by simp)
    have step := setupStep_preserves api key g acc hg h1
    have tail := ih (setupStep api acc g)
      (fun x hx => hfail x (List.mem_cons_of_mem g hx)) step.1
    exact ⟨tail.1, tail.2.trans step.2⟩

/-- C10: a folder for which the git API is missing, or which has no
repository, or whose repository HEAD has no truthy branch name, gets no
state-change subscription and no last-branch entry from
`setupGitEventHandler` (assuming no other processed folder shares its URI),
so a later repository state change in that folder triggers no action. -/
theorem setup_skips_unqualified_folders (gitApi : Option GitAPI)
    (folders : List WorkspaceFolder) (m : BranchMap) (wf : WorkspaceFolder)
    (client : Option LanguageClient) (srv : Server) (cb : Option String)
    (files : List Uri) (m2 : BranchMap)
    (hfail : ∀ g ∈ folders, g.uri.toString = wf.uri.toString →
      gitSetupOk gitApi g = false) :
    wf.uri.toString ∉ (setupGitEventHandler gitApi folders m).2.1 ∧
    (setupGitEventHandler gitApi folders m).2.2.lookup wf.uri.toString =
      m.lookup wf.uri.toString ∧
    laterStateChange (setupGitEventHandler gitApi folders m).2.1 client srv wf
      cb files m2 = ([], m2) := by
  cases gitApi with
  | none =>
    refine ⟨by simp [setupGitEventHandler], rfl, ?_⟩
    simp [laterStateChange, setupGitEventHandler]
  | some api =>
    have h := setupFold_preserves api wf.uri.toString folders ([], m) hfail
      (by simp)
    refine ⟨h.1, h.2, ?_⟩
    unfold laterStateChange
    rw [if_neg]
    exact h.1

/-- C10 witness: a folder whose URI has no git repository is skipped, and a
later state change there (branch `dev`, connection present) does nothing. -/
theorem setup_skips_unqualified_folders_witness :
    wf0.uri.toString ∉ (setupGitEventHandler (some api0) [wf0] []).2.1 ∧
    (setupGitEventHandler (some api0) [wf0] []).2.2.lookup wf0.uri.toString =
      BranchMap.lookup [] wf0.uri.toString ∧
    laterStateChange (setupGitEventHandler (some api0) [wf0] []).2.1
      (some lc0) srv0 wf0 (some "dev") [] [] = ([], []) :=
  setup_skips_unqualified_folders (some api0) [wf0] [] wf0 (some lc0) srv0
    (some "dev") [] []
    (by
      intro g hg hk
      have hgw : g = wf0 := List.mem_singleton.mp hg
      subst hgw
      rfl)

end SourceOrbit
